import Mathlib

/-!
Verification of the generation-job orchestrator and session-persistence layer
of the Veo 3 video-generator application (`streamlit_app.py`).

The Python code is shallowly embedded: Python dict/list/str/None data is
modelled by the `PyVal` type, session/generation/video records by structures
whose fields mirror the keys the program reads and writes, the filesystem by
explicit state (a list of existing artifact paths, an abstract pair of JSON
files), and exceptions by `Except`/error flags.  Each function keeps the name
of the Python function it embeds.
-/

namespace Veo3

/-- JSON-like values: the data Python dicts/lists hold in this program.
`null` is Python `None`. -/
inductive PyVal : Type
  | null : PyVal
  | bool : Bool → PyVal
  | int : Int → PyVal
  | str : String → PyVal
  | list : List PyVal → PyVal
  | dict : List (String × PyVal) → PyVal

/-- Looking a key up in a Python dict value (non-dicts have no keys). -/
def PyVal.lookup : PyVal → String → Option PyVal
  | PyVal.dict kvs, k => kvs.lookup k
  | _, _ => none

/-- A video record, as built by `generate_videos_with_veo3` (lines 222-230 and
243-251 of the source).  `local_path` distinguishes the three states a Python
dict key can be in: `none` = key absent, `some none` = key present with value
`None`, `some (some p)` = key present with a string path.  `extra` holds any
further in-memory-only keys (the declared persisted fields are the named
ones). -/
structure Video where
  id : String
  prompt : String
  aspect_ratio : String
  model_version : String
  created_at : String
  local_path : Option (Option String)
  status : String
  extra : List (String × PyVal) := []

/-- A generation record (lines 480-490 of the source). -/
structure Generation where
  timestamp : String
  prompt : String
  settings : PyVal
  videos : List Video
  extra : List (String × PyVal) := []

/-- A session record (lines 57-62 of the source). -/
structure Session where
  id : String
  created_at : String
  name : String
  generations : List Generation
  extra : List (String × PyVal) := []

/-- The in-memory session mapping `st.session_state.sessions`: session id to
session record, in insertion order. -/
abbrev SMap := List (String × Session)

/-- `st.session_state.generated_videos_dir` (line 31). -/
def generatedVideosDir : String := "generated_videos"

/-- The canonical session file `generated_videos_dir / "sessions.json"`
(lines 87 and 126). -/
def sessionsFilePath : String := "generated_videos/sessions.json"

/-- The legacy session file `veo3_sessions.json` (line 131). -/
def legacyFilePath : String := "veo3_sessions.json"

/-- Python exceptions the embedded code can raise. -/
inductive PyErr : Type
  | typeError : PyErr
  | keyError : PyErr
  | ioError : PyErr
deriving DecidableEq

/-! ## delete_session (source lines 66-81)

The artifact-file state is the list of paths that currently exist.  The inner
loop of `delete_session` evaluates
`"local_path" in video and os.path.exists(video["local_path"])` and, when
true, runs `os.remove` inside `try/except Exception: pass`.  In Python 3,
`os.path.exists(None)` raises `TypeError` (only `OSError`/`ValueError` are
swallowed by `genericpath.exists`), and that call sits outside the inner
`try`, so a video whose `local_path` key holds `None` makes the whole
function raise. -/

/-- One pass of the inner `for video in generation.get("videos", [])` loop:
threads the artifact filesystem and stops with the Python error if one is
raised. -/
def delVideoFiles (afs : List String) : List Video → List String × Option PyErr
  | [] => (afs, none)
  | v :: vs =>
    match v.local_path with
    | none => delVideoFiles afs vs
    | some none => (afs, some PyErr.typeError)
    | some (some p) =>
      if afs.contains p then delVideoFiles (afs.erase p) vs
      else delVideoFiles afs vs

/-- The outer `for generation in session.get("generations", [])` loop. -/
def delGenFiles (afs : List String) : List Generation → List String × Option PyErr
  | [] => (afs, none)
  | g :: gs =>
    match delVideoFiles afs g.videos with
    | (afs2, none) => delGenFiles afs2 gs
    | (afs2, some e) => (afs2, some e)

/-- `del st.session_state.sessions[session_id]`. -/
def removeKey (m : SMap) (sid : String) : SMap :=
  m.filter (fun q => q.1 != sid)

/-- `delete_session(session_id)`: the result is the new
`(sessions, current_session_id)` pair (or the uncaught Python exception),
together with the artifact filesystem, whose mutations persist even when the
exception escapes. -/
def delete_session (m : SMap) (cur : Option String) (afs : List String)
    (sid : String) : Except PyErr (SMap × Option String) × List String :=
  match m.lookup sid with
  | none => (Except.ok (m, cur), afs)
  | some s =>
    match delGenFiles afs s.generations with
    | (afs2, some e) => (Except.error e, afs2)
    | (afs2, none) =>
      (Except.ok (removeKey m sid, if cur = some sid then none else cur), afs2)

/-! Assoc-list facts used for the frame properties of `delete_session`. -/

theorem lookup_removeKey_self (m : SMap) (sid : String) :
    (removeKey m sid).lookup sid = none := by
  induction m with
  | nil => rfl
  | cons hd tl ih =>
    obtain ⟨k, v⟩ := hd
    simp only [removeKey] at ih ⊢
    by_cases h : k = sid
    · have hb : (k != sid) = false := by simp [h]
      simpa [List.filter_cons, hb] using ih
    · have hb : (k != sid) = true := by simp [h]
      have hb2 : (sid == k) = false := beq_eq_false_iff_ne.mpr (Ne.symm h)
      simpa [List.filter_cons, hb, List.lookup, hb2] using ih

theorem lookup_removeKey_ne (m : SMap) (sid other : String) (h : other ≠ sid) :
    (removeKey m sid).lookup other = m.lookup other := by
  induction m with
  | nil => rfl
  | cons hd tl ih =>
    obtain ⟨k, v⟩ := hd
    simp only [removeKey] at ih ⊢
    by_cases hk : k = sid
    · have hb : (k != sid) = false := by simp [hk]
      have hko : (other == k) = false := by
        subst hk
        exact beq_eq_false_iff_ne.mpr h
      simpa [List.filter_cons, hb, List.lookup, hko] using ih
    · have hb : (k != sid) = true := by simp [hk]
      by_cases hko : other = k
      · simp [List.filter_cons, hb, List.lookup, hko]
      · have hko2 : (other == k) = false := beq_eq_false_iff_ne.mpr hko
        simpa [List.filter_cons, hb, List.lookup, hko2] using ih

/-- The demo session of the spec scenario: one generation holding a completed
video whose artifact exists and a timed-out video whose `local_path` is
`None`. -/
def demoCompletedVideo : Video :=
  { id := "v1", prompt := "a cat", aspect_ratio := "16:9",
    model_version := "veo-3.0-fast-generate-preview",
    created_at := "2025-01-01T00:00:00",
    local_path := some (some "generated_videos/veo3_v1_20250101_000000.mp4"),
    status := "completed" }

def demoTimeoutVideo : Video :=
  { id := "v2", prompt := "a cat", aspect_ratio := "16:9",
    model_version := "veo-3.0-fast-generate-preview",
    created_at := "2025-01-01T00:01:00",
    local_path := some none,
    status := "timeout" }

def demoSession : Session :=
  { id := "demo", created_at := "2025-01-01T00:00:00", name := "demo",
    generations :=
      [{ timestamp := "2025-01-01T00:00:00", prompt := "a cat",
         settings := PyVal.dict [], videos := [demoCompletedVideo, demoTimeoutVideo] }] }

def demoMap : SMap := [("demo", demoSession)]

/-- C4.  On the spec scenario (one completed video whose artifact exists, one
timed-out video with `local_path = None`), `delete_session` removes the one
existing artifact file but then raises `TypeError` from
`os.path.exists(None)` on the timed-out video, so the session is never
removed from the mapping and the error escapes to the caller — contradicting
the claim (and the code's own missing-file tolerance) that the cascade never
fails. -/
theorem delete_session_demo_raises :
    delete_session demoMap (some "demo")
        ["generated_videos/veo3_v1_20250101_000000.mp4"] "demo"
      = (Except.error PyErr.typeError, []) := rfl

/-- C8.  `delete_session` with an unknown identifier is a no-op (mapping,
active-session reference and artifact files unchanged, no error); when the
identifier is present and the deletion returns without raising, the session
is removed, every other session's record is unchanged, the active-session
reference is cleared exactly when it referred to the deleted session, and
deleting the same identifier a second time is a no-op. -/
theorem delete_session_frame (m : SMap) (cur : Option String)
    (afs : List String) (sid : String) :
    (m.lookup sid = none → delete_session m cur afs sid = (Except.ok (m, cur), afs)) ∧
    (∀ s m2 cur2 afs2, m.lookup sid = some s →
      delete_session m cur afs sid = (Except.ok (m2, cur2), afs2) →
      m2.lookup sid = none ∧
      (∀ other, other ≠ sid → m2.lookup other = m.lookup other) ∧
      cur2 = (if cur = some sid then none else cur) ∧
      delete_session m2 cur2 afs2 sid = (Except.ok (m2, cur2), afs2)) := by
  constructor
  · intro h
    simp [delete_session, h]
  · intro s m2 cur2 afs2 hs heq
    have hun : delete_session m cur afs sid
        = (match delGenFiles afs s.generations with
          | (afs3, some e) => (Except.error e, afs3)
          | (afs3, none) =>
            (Except.ok (removeKey m sid, if cur = some sid then none else cur), afs3)) := by
      unfold delete_session
      rw [hs]
    rw [hun] at heq
    rcases hdel : delGenFiles afs s.generations with ⟨afs3, oe⟩
    rw [hdel] at heq
    cases oe with
    | some e => simp at heq
    | none =>
      simp only [Prod.mk.injEq, Except.ok.injEq] at heq
      obtain ⟨⟨hm2, hcur2⟩, hafs⟩ := heq
      subst hm2; subst hcur2; subst hafs
      refine ⟨lookup_removeKey_self m sid, ?_, rfl, ?_⟩
      · intro other hne
        exact lookup_removeKey_ne m sid other hne
      · simp [delete_session, lookup_removeKey_self m sid]

/-- Second session used in the C8 witness. -/
def demoSession2 : Session :=
  { id := "keep", created_at := "2025-01-02T00:00:00", name := "keep",
    generations := [] }

def c8Map : SMap := [("demo", demoSession), ("keep", demoSession2)]

/-- A session whose only video has a real path, so its deletion succeeds. -/
def c8OkSession : Session :=
  { id := "ok", created_at := "2025-01-03T00:00:00", name := "ok",
    generations :=
      [{ timestamp := "2025-01-03T00:00:00", prompt := "a dog",
         settings := PyVal.dict [], videos := [demoCompletedVideo] }] }

def c8OkMap : SMap := [("ok", c8OkSession), ("keep", demoSession2)]

/-- Witness for C8 at a concrete state: deleting session "ok" (whose one video
has an existing artifact) succeeds, removes it, keeps "keep" untouched,
clears the active reference, and a second deletion is a no-op. -/
theorem delete_session_frame_witness :
    delete_session c8OkMap (some "ok")
        ["generated_videos/veo3_v1_20250101_000000.mp4"] "ok"
      = (Except.ok ([("keep", demoSession2)], none), []) ∧
    (List.lookup "ok" ([("keep", demoSession2)] : SMap) = none ∧
     List.lookup "keep" ([("keep", demoSession2)] : SMap) = List.lookup "keep" c8OkMap ∧
     delete_session [("keep", demoSession2)] none [] "ok"
       = (Except.ok ([("keep", demoSession2)], none), [])) := by
  have h := (delete_session_frame c8OkMap (some "ok")
      ["generated_videos/veo3_v1_20250101_000000.mp4"] "ok").2
    c8OkSession [("keep", demoSession2)] none [] rfl rfl
  exact ⟨rfl, h.1, h.2.1 "keep" (by decide), h.2.2.2⟩

/-! ## Session persistence (source lines 84-138)

The two JSON files are modelled by their parsed content (`Option PyVal`,
`none` = the file does not exist); the filesystem operations a run performs
are recorded in an `FsOp` trace so that write/rename/read behaviour is
observable. -/

/-- The persistence filesystem: the canonical and the legacy session file. -/
structure PFS where
  canonical : Option PyVal
  legacy : Option PyVal

/-- Filesystem operations performed by save/load. -/
inductive FsOp : Type
  | existsCheck : String → FsOp
  | readJson : String → FsOp
  | openWrite : String → FsOp
  | writeJson : String → PyVal → FsOp
  | rename : String → String → FsOp

/-- The relevant `st.session_state` fields. -/
structure AppState where
  sessions : SMap
  current_session_id : Option String
  pfs : PFS

/-- `video.get("local_path", "")` followed by placing the value in the copy
(source line 111): an absent key becomes `""`, `None` stays `None`. -/
def lpVal : Option (Option String) → PyVal
  | none => PyVal.str ""
  | some none => PyVal.null
  | some (some p) => PyVal.str p

/-- The per-video field-list copy (source lines 105-113). -/
def videoCopy (v : Video) : PyVal :=
  PyVal.dict [("id", PyVal.str v.id), ("prompt", PyVal.str v.prompt),
    ("aspect_ratio", PyVal.str v.aspect_ratio),
    ("model_version", PyVal.str v.model_version),
    ("created_at", PyVal.str v.created_at),
    ("local_path", lpVal v.local_path),
    ("status", PyVal.str v.status)]

/-- The per-generation copy (source lines 98-103, 114). -/
def genCopy (g : Generation) : PyVal :=
  PyVal.dict [("timestamp", PyVal.str g.timestamp),
    ("prompt", PyVal.str g.prompt),
    ("settings", g.settings),
    ("videos", PyVal.list (g.videos.map videoCopy))]

/-- The per-session copy (source lines 91-96, 115). -/
def sessionCopy (s : Session) : PyVal :=
  PyVal.dict [("id", PyVal.str s.id), ("created_at", PyVal.str s.created_at),
    ("name", PyVal.str s.name),
    ("generations", PyVal.list (s.generations.map genCopy))]

/-- `sessions_copy` (source lines 89-115): the whole mapping, serialized by
declared field list; any other in-memory key (the `extra` fields) is
dropped. -/
def sessionsCopy (m : SMap) : PyVal :=
  PyVal.dict (m.map (fun q => (q.1, sessionCopy q.2)))

/-- The body of the `try` block of `save_sessions_to_file` (lines 86-118):
builds the copy and writes it with `open(sessions_file, "w")` + `json.dump`
directly at the canonical path.  `writeOk` is the environment's choice of
whether the file write raises an I/O error. -/
def save_try (st : AppState) (writeOk : Bool) :
    Except PyErr (PFS × List FsOp) :=
  let v := sessionsCopy st.sessions
  if writeOk then
    Except.ok ({ st.pfs with canonical := some v },
      [FsOp.openWrite sessionsFilePath, FsOp.writeJson sessionsFilePath v])
  else Except.error PyErr.ioError

/-- `save_sessions_to_file` (lines 84-120): the `try/except` wrapper.  The
final `Bool` records whether `st.error` reported a caught exception. -/
def save_sessions_to_file (st : AppState) (writeOk : Bool) :
    AppState × List FsOp × Bool :=
  match save_try st writeOk with
  | Except.ok (pfs2, tr) => ({ st with pfs := pfs2 }, tr, false)
  | Except.error _ => (st, [FsOp.openWrite sessionsFilePath], true)

/-- `load_sessions_from_file` (lines 123-138): returns the new value of
`st.session_state.sessions` (as raw parsed JSON), the filesystem after the
possible legacy migration, and the trace of file operations. -/
def load_sessions_from_file (sessions0 : PyVal) (fs : PFS) :
    PyVal × PFS × List FsOp :=
  match fs.canonical with
  | some v => (v, fs, [FsOp.existsCheck sessionsFilePath, FsOp.readJson sessionsFilePath])
  | none =>
    match fs.legacy with
    | some v =>
      (v, { fs with canonical := some v },
        [FsOp.existsCheck sessionsFilePath, FsOp.existsCheck legacyFilePath,
         FsOp.readJson legacyFilePath, FsOp.openWrite sessionsFilePath,
         FsOp.writeJson sessionsFilePath v])
    | none =>
      (sessions0, fs,
        [FsOp.existsCheck sessionsFilePath, FsOp.existsCheck legacyFilePath])

/-- Does a filesystem operation touch the given path? -/
def fsOpTouches (path : String) : FsOp → Bool
  | FsOp.existsCheck p => p == path
  | FsOp.readJson p => p == path
  | FsOp.openWrite p => p == path
  | FsOp.writeJson p _ => p == path
  | FsOp.rename a b => a == path || b == path

def traceTouches (tr : List FsOp) (path : String) : Bool :=
  tr.any (fsOpTouches path)

def fsOpIsRename : FsOp → Bool
  | FsOp.rename _ _ => true
  | _ => false

def traceHasRename (tr : List FsOp) : Bool :=
  tr.any fsOpIsRename

/-- C5 counterexample.  At a concrete state (empty session mapping, a
succeeding write), the trace of `save_sessions_to_file` is an `open`-for-write
of the canonical path followed by the JSON write at that same path: it
contains no rename at all and no temporary file, refuting the claim that
every save writes a temporary file and renames it over the canonical path. -/
theorem save_trace_has_no_rename :
    (save_sessions_to_file ⟨[], none, ⟨none, none⟩⟩ true).2.1
      = [FsOp.openWrite sessionsFilePath,
         FsOp.writeJson sessionsFilePath (PyVal.dict [])] ∧
    traceHasRename (save_sessions_to_file ⟨[], none, ⟨none, none⟩⟩ true).2.1 = false := by
  exact ⟨rfl, rfl⟩

/-- C5 amended.  A successful save opens the canonical file itself for
writing and writes the serialized JSON there in place; no temporary file is
written and no rename happens, so the canonical file is changed by the direct
write, not by a rename (a concurrent reader may observe a partial
document). -/
theorem save_writes_canonical_in_place (st : AppState) :
    save_sessions_to_file st true
      = ({ st with pfs := { st.pfs with canonical := some (sessionsCopy st.sessions) } },
         [FsOp.openWrite sessionsFilePath,
          FsOp.writeJson sessionsFilePath (sessionsCopy st.sessions)],
         false) ∧
    traceHasRename (save_sessions_to_file st true).2.1 = false := by
  exact ⟨rfl, rfl⟩

/-- C10.  `save_sessions_to_file` serializes a field-by-field copy: the
in-memory session mapping and active-session reference are unchanged, and no
exception escapes — the function always returns normally, and the error
report flag is set exactly when the try-block body raised. -/
theorem save_preserves_state_and_catches (st : AppState) (writeOk : Bool) :
    (save_sessions_to_file st writeOk).1.sessions = st.sessions ∧
    (save_sessions_to_file st writeOk).1.current_session_id = st.current_session_id ∧
    ((save_sessions_to_file st writeOk).2.2 = true ↔
      ∃ e, save_try st writeOk = Except.error e) := by
  cases writeOk with
  | false => simp [save_sessions_to_file, save_try]
  | true => simp [save_sessions_to_file, save_try]

/-- C7.  (a) When the canonical file is absent and the legacy file is
present, load returns the legacy mapping and rewrites exactly that content
into the canonical file; (b) whenever the canonical file is present (in
particular after the migration), load reads only the canonical file — its
trace never touches the legacy path — and changes nothing; (c) when both
files are absent, the session mapping is left as it was (empty stays
empty). -/
theorem load_migration_spec (s0 v : PyVal) (fs : PFS) :
    (fs.canonical = none → fs.legacy = some v →
      load_sessions_from_file s0 fs
        = (v, { canonical := some v, legacy := some v },
           [FsOp.existsCheck sessionsFilePath, FsOp.existsCheck legacyFilePath,
            FsOp.readJson legacyFilePath, FsOp.openWrite sessionsFilePath,
            FsOp.writeJson sessionsFilePath v])) ∧
    (fs.canonical = some v →
      load_sessions_from_file s0 fs
        = (v, fs, [FsOp.existsCheck sessionsFilePath, FsOp.readJson sessionsFilePath]) ∧
      traceTouches (load_sessions_from_file s0 fs).2.2 legacyFilePath = false) ∧
    (fs.canonical = none → fs.legacy = none →
      load_sessions_from_file s0 fs
        = (s0, fs, [FsOp.existsCheck sessionsFilePath, FsOp.existsCheck legacyFilePath])) := by
  obtain ⟨c, l⟩ := fs
  refine ⟨?_, ?_, ?_⟩
  · intro hc hl
    simp only at hc hl
    subst hc; subst hl
    rfl
  · intro hc
    simp only at hc
    subst hc
    refine ⟨rfl, ?_⟩
    show traceTouches
      [FsOp.existsCheck sessionsFilePath, FsOp.readJson sessionsFilePath]
      legacyFilePath = false
    decide
  · intro hc hl
    simp only at hc hl
    subst hc; subst hl
    rfl

/-- Witness for C7: a concrete filesystem where only the legacy file exists,
holding one (empty) session entry; after migration the canonical file holds
the same content and a second load only reads the canonical file. -/
theorem load_migration_witness :
    load_sessions_from_file (PyVal.dict []) ⟨none, some (PyVal.dict [("s1", PyVal.dict [])])⟩
      = (PyVal.dict [("s1", PyVal.dict [])],
         ⟨some (PyVal.dict [("s1", PyVal.dict [])]), some (PyVal.dict [("s1", PyVal.dict [])])⟩,
         [FsOp.existsCheck sessionsFilePath, FsOp.existsCheck legacyFilePath,
          FsOp.readJson legacyFilePath, FsOp.openWrite sessionsFilePath,
          FsOp.writeJson sessionsFilePath (PyVal.dict [("s1", PyVal.dict [])])]) ∧
    (load_sessions_from_file (PyVal.dict [])
        ⟨some (PyVal.dict [("s1", PyVal.dict [])]), some (PyVal.dict [("s1", PyVal.dict [])])⟩
      = (PyVal.dict [("s1", PyVal.dict [])],
         ⟨some (PyVal.dict [("s1", PyVal.dict [])]), some (PyVal.dict [("s1", PyVal.dict [])])⟩,
         [FsOp.existsCheck sessionsFilePath, FsOp.readJson sessionsFilePath]) ∧
     traceTouches
        (load_sessions_from_file (PyVal.dict [])
          ⟨some (PyVal.dict [("s1", PyVal.dict [])]),
           some (PyVal.dict [("s1", PyVal.dict [])])⟩).2.2 legacyFilePath = false) ∧
    load_sessions_from_file (PyVal.dict []) ⟨none, none⟩
      = (PyVal.dict [], ⟨none, none⟩,
         [FsOp.existsCheck sessionsFilePath, FsOp.existsCheck legacyFilePath]) := by
  refine ⟨?_, ?_, ?_⟩
  · exact (load_migration_spec (PyVal.dict []) (PyVal.dict [("s1", PyVal.dict [])])
      ⟨none, some (PyVal.dict [("s1", PyVal.dict [])])⟩).1 rfl rfl
  · exact (load_migration_spec (PyVal.dict []) (PyVal.dict [("s1", PyVal.dict [])])
      ⟨some (PyVal.dict [("s1", PyVal.dict [])]),
       some (PyVal.dict [("s1", PyVal.dict [])])⟩).2.1 rfl
  · exact (load_migration_spec (PyVal.dict []) (PyVal.dict [])
      ⟨none, none⟩).2.2 rfl rfl

/-! ## Round-trip equivalence (C6)

The loaded file content (raw parsed JSON) is equivalent to an in-memory
mapping when they agree on every field of the declared persisted field list;
fields outside that list (the `extra` in-memory-only keys) are ignored. -/

/-- How a present `local_path` value is persisted: `None` as JSON null, a
path as a JSON string. -/
def lpJson : Option String → PyVal
  | none => PyVal.null
  | some q => PyVal.str q

/-- Agreement of a video record with a parsed JSON video object on the
declared persisted field list. -/
def videoEquiv (v : Video) (pv : PyVal) : Prop :=
  PyVal.lookup pv "id" = some (PyVal.str v.id) ∧
  PyVal.lookup pv "prompt" = some (PyVal.str v.prompt) ∧
  PyVal.lookup pv "aspect_ratio" = some (PyVal.str v.aspect_ratio) ∧
  PyVal.lookup pv "model_version" = some (PyVal.str v.model_version) ∧
  PyVal.lookup pv "created_at" = some (PyVal.str v.created_at) ∧
  (∃ lp, v.local_path = some lp ∧ PyVal.lookup pv "local_path" = some (lpJson lp)) ∧
  PyVal.lookup pv "status" = some (PyVal.str v.status)

/-- Agreement of a generation record with a parsed JSON generation object. -/
def genEquiv (g : Generation) (pv : PyVal) : Prop :=
  PyVal.lookup pv "timestamp" = some (PyVal.str g.timestamp) ∧
  PyVal.lookup pv "prompt" = some (PyVal.str g.prompt) ∧
  PyVal.lookup pv "settings" = some g.settings ∧
  ∃ vl, PyVal.lookup pv "videos" = some (PyVal.list vl) ∧
    List.Forall₂ videoEquiv g.videos vl

/-- Agreement of a session record with a parsed JSON session object. -/
def sessionEquiv (s : Session) (pv : PyVal) : Prop :=
  PyVal.lookup pv "id" = some (PyVal.str s.id) ∧
  PyVal.lookup pv "created_at" = some (PyVal.str s.created_at) ∧
  PyVal.lookup pv "name" = some (PyVal.str s.name) ∧
  ∃ gl, PyVal.lookup pv "generations" = some (PyVal.list gl) ∧
    List.Forall₂ genEquiv s.generations gl

/-- Agreement of the whole session mapping with a parsed JSON document: same
session ids in the same order, and each session equivalent. -/
def sessionsEquiv (m : SMap) (pv : PyVal) : Prop :=
  ∃ kvs, pv = PyVal.dict kvs ∧
    List.Forall₂ (fun a b => a.1 = b.1 ∧ sessionEquiv a.2 b.2) m kvs

/-- Well-formedness: every video record has its `local_path` key present
(with `None` or a path), as every video the program builds does. -/
def WFlp (m : SMap) : Prop :=
  ∀ q ∈ m, ∀ g ∈ q.2.generations, ∀ w ∈ g.videos, w.local_path.isSome = true

theorem videoEquiv_copy (v : Video) (h : v.local_path.isSome = true) :
    videoEquiv v (videoCopy v) := by
  obtain ⟨lp, hlp⟩ := Option.isSome_iff_exists.mp h
  refine ⟨rfl, rfl, rfl, rfl, rfl, ⟨lp, hlp, ?_⟩, rfl⟩
  have h1 : PyVal.lookup (videoCopy v) "local_path" = some (lpVal v.local_path) := rfl
  rw [h1, hlp]
  cases lp <;> rfl

theorem videosEquiv_copy (vs : List Video)
    (h : ∀ w ∈ vs, w.local_path.isSome = true) :
    List.Forall₂ videoEquiv vs (vs.map videoCopy) := by
  induction vs with
  | nil => exact List.Forall₂.nil
  | cons a t ih =>
    refine List.Forall₂.cons (videoEquiv_copy a (h a (by simp))) (ih ?_)
    intro w hw
    exact h w (by simp [hw])

theorem genEquiv_copy (g : Generation)
    (h : ∀ w ∈ g.videos, w.local_path.isSome = true) :
    genEquiv g (genCopy g) :=
  ⟨rfl, rfl, rfl, ⟨g.videos.map videoCopy, rfl, videosEquiv_copy g.videos h⟩⟩

theorem gensEquiv_copy (gs : List Generation)
    (h : ∀ g ∈ gs, ∀ w ∈ g.videos, w.local_path.isSome = true) :
    List.Forall₂ genEquiv gs (gs.map genCopy) := by
  induction gs with
  | nil => exact List.Forall₂.nil
  | cons a t ih =>
    refine List.Forall₂.cons (genEquiv_copy a (h a (by simp))) (ih ?_)
    intro g hg
    exact h g (by simp [hg])

theorem sessionEquiv_copy (s : Session)
    (h : ∀ g ∈ s.generations, ∀ w ∈ g.videos, w.local_path.isSome = true) :
    sessionEquiv s (sessionCopy s) :=
  ⟨rfl, rfl, rfl, ⟨s.generations.map genCopy, rfl, gensEquiv_copy s.generations h⟩⟩

instance (m : SMap) : Decidable (WFlp m) := by
  unfold WFlp
  infer_instance

theorem sessionsEquiv_copy (m : SMap) (h : WFlp m) :
    sessionsEquiv m (sessionsCopy m) := by
  refine ⟨_, rfl, ?_⟩
  induction m with
  | nil => exact List.Forall₂.nil
  | cons a t ih =>
    refine List.Forall₂.cons ⟨rfl, sessionEquiv_copy a.2 ?_⟩ (ih ?_)
    · intro g hg w hw
      exact h a (by simp) g hg w hw
    · intro q hq g hg w hw
      exact h q (by simp [hq]) g hg w hw

/-- C6.  Saving the session mapping and loading it back reproduces an
equivalent mapping: the loaded document agrees with the in-memory mapping on
every declared persisted field, and fields outside the declared list (the
in-memory-only `extra` keys) are stripped by the field-list serialization and
ignored by the equivalence.  `WFlp` states that every video has its
`local_path` key, as all program-built videos do. -/
theorem save_then_load_roundtrip (st : AppState) (s0 : PyVal)
    (h : WFlp st.sessions) :
    sessionsEquiv st.sessions
      (load_sessions_from_file s0 (save_sessions_to_file st true).1.pfs).1 := by
  have he : (load_sessions_from_file s0 (save_sessions_to_file st true).1.pfs).1
      = sessionsCopy st.sessions := rfl
  rw [he]
  exact sessionsEquiv_copy st.sessions h

/-- A video carrying an in-memory-only extra key, for the C6 witness. -/
def c6ExtraVideo : Video :=
  { demoCompletedVideo with extra := [("op_handle", PyVal.null)] }

/-- A concrete mapping for the C6 witness, including a timed-out video and a
video carrying an in-memory-only extra key. -/
def c6Session : Session :=
  { id := "s1", created_at := "2025-01-01T00:00:00", name := "Session one",
    generations :=
      [{ timestamp := "2025-01-01T00:00:00", prompt := "a cat",
         settings := PyVal.dict [("aspect_ratio", PyVal.str "16:9")],
         videos := [demoCompletedVideo, demoTimeoutVideo, c6ExtraVideo] }] }

def c6Map : SMap := [("s1", c6Session)]

/-! ## generate_videos_with_veo3 (source lines 141-265)

The remote client is abstracted by the behaviour it exhibits per variation.
The whole `for i in range(num_variations)` loop sits inside one
`try/except Exception` (lines 158-263): any raise from a submission or a
download aborts the remaining variations, reports the error, and the function
returns the `videos` list accumulated so far. -/

/-- The remote client's behaviour for one variation.  `submit = none`:
`client.models.generate_videos` raises.  `submit = some d`: it returns an
operation whose `done` flag is true once `d` polls have been made
(`some (some 0)`: done immediately; `some none`: never done).
`downloadOk = false`: the download/save of a completed operation raises. -/
structure VarBehavior where
  submit : Option (Option Nat)
  downloadOk : Bool

/-- `operation.done` after `polls` calls to `client.operations.get`. -/
def opDone (d : Option Nat) (polls : Nat) : Bool :=
  match d with
  | some k => decide (k ≤ polls)
  | none => false

/-- `max_polls = 60` (source line 189). -/
def max_polls : Nat := 60

/-- The polling loop `while not operation.done and poll_count < max_polls`
(source lines 191-204), with `max_polls - poll_count` as structural fuel:
each iteration is one `operations.get` call.  Returns the final
`poll_count`. -/
def pollLoopAux (d : Option Nat) : Nat → Nat → Nat
  | 0, c => c
  | r + 1, c => if opDone d c then c else pollLoopAux d r (c + 1)

/-- The number of poll calls made for an operation with behaviour `d`. -/
def pollCalls (d : Option Nat) : Nat := pollLoopAux d max_polls 0

/-- `operation.done` when the polling loop has exited (source line 206). -/
def doneWithinBudget (d : Option Nat) : Bool := opDone d (pollCalls d)

/-- Observable calls and reports of one run of the generator. -/
inductive GenEv : Type
  | submitCall : Nat → GenEv
  | pollCall : Nat → GenEv
  | downloadCall : Nat → GenEv
  | warnTimeout : Nat → GenEv
  | errorReport : GenEv
deriving DecidableEq

/-- The prompt/settings arguments together with the supplies of fresh
identifiers (`uuid4` per variation), filename timestamps and `created_at`
timestamps. -/
structure GenParams where
  prompt : String
  aspect_ratio : String
  model_version : String
  ids : Nat → String
  fstamp : Nat → String
  cstamp : Nat → String

/-- `generated_videos_dir / f"veo3_{video_id}_{timestamp}.mp4"`
(source lines 211-215). -/
def videoPath (vid fs : String) : String :=
  generatedVideosDir ++ "/veo3_" ++ vid ++ "_" ++ fs ++ ".mp4"

/-- The completed-video record (source lines 222-230). -/
def completedVideo (p : GenParams) (i : Nat) : Video :=
  { id := p.ids i, prompt := p.prompt, aspect_ratio := p.aspect_ratio,
    model_version := p.model_version, created_at := p.cstamp i,
    local_path := some (some (videoPath (p.ids i) (p.fstamp i))),
    status := "completed" }

/-- The timed-out-video record (source lines 243-251): `local_path` is the
key present with value `None`. -/
def timeoutVideo (p : GenParams) (i : Nat) : Video :=
  { id := p.ids i, prompt := p.prompt, aspect_ratio := p.aspect_ratio,
    model_version := p.model_version, created_at := p.cstamp i,
    local_path := some none, status := "timeout" }

/-- The `for i in range(num_variations)` loop (source lines 159-256), with
`r` the remaining iterations and `i` the current index.  A raise from
submission or download stops the recursion (the exception escapes to the
batch-level `except`), appending the error report. -/
def genLoop (p : GenParams) (beh : Nat → VarBehavior) :
    Nat → Nat → List Video × List GenEv
  | 0, _ => ([], [])
  | r + 1, i =>
    match (beh i).submit with
    | none => ([], [GenEv.submitCall i, GenEv.errorReport])
    | some d =>
      let evs0 := GenEv.submitCall i ::
        List.replicate (pollCalls d) (GenEv.pollCall i)
      if doneWithinBudget d then
        if (beh i).downloadOk then
          let rest := genLoop p beh r (i + 1)
          (completedVideo p i :: rest.1,
           evs0 ++ [GenEv.downloadCall i] ++ rest.2)
        else ([], evs0 ++ [GenEv.downloadCall i, GenEv.errorReport])
      else
        let rest := genLoop p beh r (i + 1)
        (timeoutVideo p i :: rest.1, evs0 ++ [GenEv.warnTimeout i] ++ rest.2)

/-- `generate_videos_with_veo3` (source lines 141-265): `client = none`
models an unconfigured `st.session_state.client`; the guard at lines 154-156
reports the configuration error and returns the empty `videos` list without
any submission. -/
def generate_videos_with_veo3 (client : Option (Nat → VarBehavior))
    (p : GenParams) (n : Nat) : List Video × List GenEv :=
  match client with
  | none => ([], [GenEv.errorReport])
  | some beh => genLoop p beh n 0

/-- A variation behaviour that raises no exception: submission returns an
operation and, if the operation completes within the poll budget, the
download succeeds. -/
def noRaise (b : VarBehavior) : Bool :=
  match b.submit with
  | none => false
  | some d => !doneWithinBudget d || b.downloadOk

/-- The number of poll calls variation behaviour `b` leads to. -/
def pollsOf (b : VarBehavior) : Nat :=
  match b.submit with
  | some d => pollCalls d
  | none => 0

/-- The video record a non-raising variation `i` contributes. -/
def varVideo (p : GenParams) (beh : Nat → VarBehavior) (i : Nat) : Video :=
  match (beh i).submit with
  | some d => if doneWithinBudget d then completedVideo p i else timeoutVideo p i
  | none => timeoutVideo p i

/-- The events a non-raising variation `i` contributes. -/
def varEvents (beh : Nat → VarBehavior) (i : Nat) : List GenEv :=
  match (beh i).submit with
  | some d =>
    let evs0 := GenEv.submitCall i ::
      List.replicate (pollCalls d) (GenEv.pollCall i)
    if doneWithinBudget d then evs0 ++ [GenEv.downloadCall i]
    else evs0 ++ [GenEv.warnTimeout i]
  | none => []

/-- The videos of `r` consecutive non-raising variations starting at `i`. -/
def okVideos (p : GenParams) (beh : Nat → VarBehavior) :
    Nat → Nat → List Video
  | 0, _ => []
  | r + 1, i => varVideo p beh i :: okVideos p beh r (i + 1)

/-- The events of `r` consecutive non-raising variations starting at `i`. -/
def okEvents (beh : Nat → VarBehavior) : Nat → Nat → List GenEv
  | 0, _ => []
  | r + 1, i => varEvents beh i ++ okEvents beh r (i + 1)

theorem genLoop_ok (p : GenParams) (beh : Nat → VarBehavior) :
    ∀ r i, (∀ j, j < r → noRaise (beh (i + j)) = true) →
      genLoop p beh r i = (okVideos p beh r i, okEvents beh r i) := by
  intro r
  induction r with
  | zero => intro i _; rfl
  | succ r ih =>
    intro i h
    have h0 : noRaise (beh i) = true := by simpa using h 0 (Nat.succ_pos r)
    have hrest : ∀ j, j < r → noRaise (beh (i + 1 + j)) = true := by
      intro j hj
      have hx := h (j + 1) (Nat.succ_lt_succ hj)
      have heq : i + (j + 1) = i + 1 + j := by omega
      rwa [heq] at hx
    rcases hs : (beh i).submit with _ | d
    · simp [noRaise, hs] at h0
    · cases hd : doneWithinBudget d with
      | true =>
        have hdl : (beh i).downloadOk = true := by
          simpa [noRaise, hs, hd] using h0
        simp only [genLoop, okVideos, okEvents, varVideo, varEvents, hs, hd,
          hdl, ih (i + 1) hrest]
        simp [List.append_assoc]
      | false =>
        simp only [genLoop, okVideos, okEvents, varVideo, varEvents, hs, hd,
          ih (i + 1) hrest]
        simp [List.append_assoc]

theorem genLoop_abort (p : GenParams) (beh : Nat → VarBehavior) :
    ∀ r i k, i ≤ k → k < i + r →
      (∀ j, i ≤ j → j < k → noRaise (beh j) = true) →
      (beh k).submit = none →
      genLoop p beh r i
        = (okVideos p beh (k - i) i,
           okEvents beh (k - i) i ++ [GenEv.submitCall k, GenEv.errorReport]) := by
  intro r
  induction r with
  | zero => intro i k h1 h2 _ _; omega
  | succ r ih =>
    intro i k h1 h2 h3 h4
    by_cases hik : k = i
    · subst hik
      have hki : k - k = 0 := by omega
      simp [genLoop, h4, hki, okVideos, okEvents]
    · have hlt : i < k := by omega
      have h0 : noRaise (beh i) = true := h3 i (le_refl i) hlt
      rcases hs : (beh i).submit with _ | d
      · simp [noRaise, hs] at h0
      · have hrec := ih (i + 1) k (by omega) (by omega)
          (fun j hj1 hj2 => h3 j (by omega) hj2) h4
        have hsub : k - i = (k - (i + 1)) + 1 := by omega
        cases hd : doneWithinBudget d with
        | true =>
          have hdl : (beh i).downloadOk = true := by
            simpa [noRaise, hs, hd] using h0
          rw [hsub]
          simp only [genLoop, okVideos, okEvents, varVideo, varEvents, hs, hd,
            hdl, hrec]
          simp [List.append_assoc]
        | false =>
          rw [hsub]
          simp only [genLoop, okVideos, okEvents, varVideo, varEvents, hs, hd,
            hrec]
          simp [List.append_assoc]

theorem okVideos_length (p : GenParams) (beh : Nat → VarBehavior) :
    ∀ r i, (okVideos p beh r i).length = r := by
  intro r
  induction r with
  | zero => intro i; rfl
  | succ r ih => intro i; simp [okVideos, ih]

theorem okVideos_get (p : GenParams) (beh : Nat → VarBehavior) :
    ∀ r i k, k < r →
      (okVideos p beh r i)[k]? = some (varVideo p beh (i + k)) := by
  intro r
  induction r with
  | zero => intro i k hk; omega
  | succ r ih =>
    intro i k hk
    cases k with
    | zero => simp [okVideos]
    | succ k =>
      have heq : i + (k + 1) = (i + 1) + k := by omega
      rw [heq]
      simpa [okVideos] using ih (i + 1) k (by omega)

theorem varVideo_status (p : GenParams) (beh : Nat → VarBehavior) (i : Nat) :
    (varVideo p beh i).status = "completed" ∨ (varVideo p beh i).status = "timeout" := by
  unfold varVideo
  rcases hs : (beh i).submit with _ | d
  · right; rfl
  · cases hd : doneWithinBudget d with
    | true => left; simp [hd, completedVideo]
    | false => right; simp [hd, timeoutVideo]

theorem okVideos_status (p : GenParams) (beh : Nat → VarBehavior) :
    ∀ r i v, v ∈ okVideos p beh r i →
      v.status = "completed" ∨ v.status = "timeout" := by
  intro r
  induction r with
  | zero => intro i v hv; simp [okVideos] at hv
  | succ r ih =>
    intro i v hv
    simp only [okVideos, List.mem_cons] at hv
    rcases hv with hv | hv
    · subst hv; exact varVideo_status p beh i
    · exact ih (i + 1) v hv

theorem count_pollCall_varEvents (beh : Nat → VarBehavior) (i t : Nat) :
    (varEvents beh i).count (GenEv.pollCall t)
      = if t = i then pollsOf (beh i) else 0 := by
  unfold varEvents pollsOf
  rcases hs : (beh i).submit with _ | d
  · simp
  · by_cases ht : t = i
    · subst ht
      cases hd : doneWithinBudget d <;>
        simp [hd, List.count_cons, List.count_append, List.count_replicate]
    · cases hd : doneWithinBudget d <;>
        simp [hd, ht, List.count_cons, List.count_append, List.count_replicate] <;>
        exact fun hti => absurd hti.symm ht

theorem count_pollCall_okEvents_lt (beh : Nat → VarBehavior) :
    ∀ r i t, t < i → (okEvents beh r i).count (GenEv.pollCall t) = 0 := by
  intro r
  induction r with
  | zero => intro i t _; rfl
  | succ r ih =>
    intro i t ht
    have hne : t ≠ i := by omega
    simp [okEvents, List.count_append, count_pollCall_varEvents, hne,
      ih (i + 1) t (by omega)]

theorem count_pollCall_okEvents_ge (beh : Nat → VarBehavior) :
    ∀ r i t, i + r ≤ t → (okEvents beh r i).count (GenEv.pollCall t) = 0 := by
  intro r
  induction r with
  | zero => intro i t _; rfl
  | succ r ih =>
    intro i t ht
    have hne : t ≠ i := by omega
    simp [okEvents, List.count_append, count_pollCall_varEvents, hne,
      ih (i + 1) t (by omega)]

theorem count_pollCall_okEvents (beh : Nat → VarBehavior) :
    ∀ r i t, i ≤ t → t < i + r →
      (okEvents beh r i).count (GenEv.pollCall t) = pollsOf (beh t) := by
  intro r
  induction r with
  | zero => intro i t h1 h2; omega
  | succ r ih =>
    intro i t h1 h2
    by_cases ht : t = i
    · subst ht
      simp [okEvents, List.count_append, count_pollCall_varEvents,
        count_pollCall_okEvents_lt beh r (t + 1) t (by omega)]
    · simp [okEvents, List.count_append, count_pollCall_varEvents, ht,
        ih (i + 1) t (by omega) (by omega)]

theorem errorReport_not_mem_varEvents (beh : Nat → VarBehavior) (i : Nat) :
    GenEv.errorReport ∉ varEvents beh i := by
  unfold varEvents
  rcases hs : (beh i).submit with _ | d
  · simp
  · cases hd : doneWithinBudget d <;>
      simp [hd, List.mem_append, List.mem_replicate]

theorem errorReport_not_mem_okEvents (beh : Nat → VarBehavior) :
    ∀ r i, GenEv.errorReport ∉ okEvents beh r i := by
  intro r
  induction r with
  | zero => intro i; simp [okEvents]
  | succ r ih =>
    intro i
    simp only [okEvents, List.mem_append]
    rintro (h | h)
    · exact errorReport_not_mem_varEvents beh i h
    · exact ih (i + 1) h

theorem warnTimeout_mem_varEvents (beh : Nat → VarBehavior) (i : Nat)
    (d : Option Nat) (hs : (beh i).submit = some d)
    (hd : doneWithinBudget d = false) :
    GenEv.warnTimeout i ∈ varEvents beh i := by
  simp [varEvents, hs, hd, List.mem_append]

theorem warnTimeout_mem_okEvents (beh : Nat → VarBehavior) :
    ∀ r i t d, i ≤ t → t < i + r → (beh t).submit = some d →
      doneWithinBudget d = false →
      GenEv.warnTimeout t ∈ okEvents beh r i := by
  intro r
  induction r with
  | zero => intro i t d h1 h2 _ _; omega
  | succ r ih =>
    intro i t d h1 h2 hs hd
    simp only [okEvents, List.mem_append]
    by_cases ht : t = i
    · subst ht
      exact Or.inl (warnTimeout_mem_varEvents beh t d hs hd)
    · exact Or.inr (ih (i + 1) t d (by omega) (by omega) hs hd)

theorem submitCall_mem_varEvents (beh : Nat → VarBehavior) (i t : Nat)
    (h : GenEv.submitCall t ∈ varEvents beh i) : t = i := by
  unfold varEvents at h
  rcases hs : (beh i).submit with _ | d
  · rw [hs] at h; simp at h
  · rw [hs] at h
    by_cases hd : doneWithinBudget d = true
    · simp [hd, List.mem_append, List.mem_replicate, List.mem_cons] at h
      exact h
    · simp [hd, List.mem_append, List.mem_replicate, List.mem_cons] at h
      exact h

theorem submitCall_mem_okEvents (beh : Nat → VarBehavior) :
    ∀ r i t, GenEv.submitCall t ∈ okEvents beh r i → t < i + r := by
  intro r
  induction r with
  | zero => intro i t h; simp [okEvents] at h
  | succ r ih =>
    intro i t h
    simp only [okEvents, List.mem_append] at h
    rcases h with h | h
    · have := submitCall_mem_varEvents beh i t h
      omega
    · have := ih (i + 1) t h
      omega

/-- C9.  With no client capability configured, `generate_videos_with_veo3`
reports the configuration error immediately and returns the empty list: no
submission to the remote client is ever made. -/
theorem generate_without_client (p : GenParams) (n : Nat) :
    generate_videos_with_veo3 none p n = ([], [GenEv.errorReport]) ∧
    (∀ i, GenEv.submitCall i ∉ (generate_videos_with_veo3 none p n).2) ∧
    (generate_videos_with_veo3 none p n).1 = [] := by
  refine ⟨rfl, ?_, rfl⟩
  intro i
  simp [generate_videos_with_veo3]

/-- Concrete generation parameters for counterexamples and witnesses. -/
def cxParams : GenParams :=
  { prompt := "a cat", aspect_ratio := "16:9",
    model_version := "veo-3.0-fast-generate-preview",
    ids := fun i => "v" ++ toString i,
    fstamp := fun _ => "20250101_000000",
    cstamp := fun _ => "2025-01-01T00:00:00" }

/-- Witness for C9 at a concrete request (N = 1). -/
theorem generate_without_client_witness :
    GenEv.submitCall 0 ∉ (generate_videos_with_veo3 none cxParams 1).2 ∧
    (generate_videos_with_veo3 none cxParams 1).1 = [] :=
  ⟨(generate_without_client cxParams 1).2.1 0, (generate_without_client cxParams 1).2.2⟩

/-- A client whose every submission raises. -/
def c1FailBeh : Nat → VarBehavior := fun _ => { submit := none, downloadOk := true }

/-- C1 counterexample.  With N = 2 and a remote client whose first submission
raises, the job returns 0 Video records, not 2: the batch-level
`try/except` aborts the loop, so the claim's "exactly N records regardless of
the client's behaviour" is false. -/
theorem generate_not_always_N :
    ¬ (generate_videos_with_veo3 (some c1FailBeh) cxParams 2).1.length = 2 := by
  decide

/-- C1 amended.  When no client call in the batch raises (each submission
returns an operation, and each operation that completes within the poll
budget downloads successfully), the job returns exactly N Video records, one
per variation, ordered by variation index (the k-th record carries the k-th
variation's identifier). -/
theorem generate_N_videos_when_client_ok (p : GenParams)
    (beh : Nat → VarBehavior) (n : Nat)
    (h : ∀ j, j < n → noRaise (beh j) = true) :
    (generate_videos_with_veo3 (some beh) p n).1 = okVideos p beh n 0 ∧
    (generate_videos_with_veo3 (some beh) p n).1.length = n ∧
    (∀ k, k < n →
      (generate_videos_with_veo3 (some beh) p n).1[k]? = some (varVideo p beh k) ∧
      (varVideo p beh k).id = p.ids k) := by
  have hz : ∀ j, j < n → noRaise (beh (0 + j)) = true := by
    intro j hj
    simpa using h j hj
  have hg : generate_videos_with_veo3 (some beh) p n = genLoop p beh n 0 := rfl
  rw [hg, genLoop_ok p beh n 0 hz]
  refine ⟨rfl, okVideos_length p beh n 0, ?_⟩
  intro k hk
  constructor
  · simpa using okVideos_get p beh n 0 k hk
  · unfold varVideo
    rcases hs : (beh k).submit with _ | d
    · rfl
    · cases hd : doneWithinBudget d with
      | true => simp [hd, completedVideo]
      | false => simp [hd, timeoutVideo]

/-- A client where variation `i` completes after `i` polls. -/
def c1OkBeh : Nat → VarBehavior :=
  fun i => { submit := some (some i), downloadOk := true }

/-- Witness for the amended C1 at N = 2 with a fully succeeding client. -/
theorem generate_N_videos_witness :
    (generate_videos_with_veo3 (some c1OkBeh) cxParams 2).1.length = 2 ∧
    (generate_videos_with_veo3 (some c1OkBeh) cxParams 2).1[1]?
      = some (varVideo cxParams c1OkBeh 1) ∧
    (varVideo cxParams c1OkBeh 1).id = cxParams.ids 1 := by
  have h := generate_N_videos_when_client_ok cxParams c1OkBeh 2 (by decide)
  exact ⟨h.2.1, (h.2.2 1 (by decide)).1, (h.2.2 1 (by decide)).2⟩

/-- A client raising at the second variation (index 1), fine elsewhere. -/
def c2Beh : Nat → VarBehavior :=
  fun i => if i = 1 then { submit := none, downloadOk := true }
    else { submit := some (some 0), downloadOk := true }

/-- A client raising at the first variation (index 0), fine elsewhere. -/
def c2CxBeh : Nat → VarBehavior :=
  fun i => if i = 0 then { submit := none, downloadOk := true }
    else { submit := some (some 0), downloadOk := true }

/-- C2 counterexample.  With N = 2 and the first submission raising (the
second variation would succeed), the job returns no Video records at all — in
particular no record with status "failed" for the raising variation — and
the second variation is never submitted: the batch aborts instead of
continuing. -/
theorem submit_error_no_failed_record :
    (generate_videos_with_veo3 (some c2CxBeh) cxParams 2).1 = [] ∧
    GenEv.submitCall 1 ∉ (generate_videos_with_veo3 (some c2CxBeh) cxParams 2).2 := by
  exact ⟨rfl, by decide⟩

/-- C2 amended.  A variation whose submission raises makes zero poll calls,
but no status=failed Video record is created for it (no record of the batch
ever has status "failed"); the batch aborts — the remaining variations are
never submitted — the error is reported, and only the records of the earlier
variations are returned. -/
theorem submit_error_aborts_batch (p : GenParams) (beh : Nat → VarBehavior)
    (n k : Nat) (hk : k < n)
    (hok : ∀ j, j < k → noRaise (beh j) = true)
    (hraise : (beh k).submit = none) :
    (generate_videos_with_veo3 (some beh) p n).1 = okVideos p beh k 0 ∧
    (generate_videos_with_veo3 (some beh) p n).1.length = k ∧
    (generate_videos_with_veo3 (some beh) p n).2
      = okEvents beh k 0 ++ [GenEv.submitCall k, GenEv.errorReport] ∧
    (generate_videos_with_veo3 (some beh) p n).2.count (GenEv.pollCall k) = 0 ∧
    (∀ t, k < t → GenEv.submitCall t ∉ (generate_videos_with_veo3 (some beh) p n).2) ∧
    GenEv.errorReport ∈ (generate_videos_with_veo3 (some beh) p n).2 ∧
    (∀ v, v ∈ (generate_videos_with_veo3 (some beh) p n).1 → v.status ≠ "failed") := by
  have hg : generate_videos_with_veo3 (some beh) p n = genLoop p beh n 0 := rfl
  have hab := genLoop_abort p beh n 0 k (Nat.zero_le k) (by omega)
    (fun j _ hj2 => hok j hj2) hraise
  have hk0 : k - 0 = k := by omega
  rw [hk0] at hab
  rw [hg, hab]
  refine ⟨rfl, okVideos_length p beh k 0, rfl, ?_, ?_, ?_, ?_⟩
  · simp [List.count_append, count_pollCall_okEvents_ge beh k 0 k (by omega)]
  · intro t ht
    simp only [List.mem_append]
    rintro (h | h)
    · have := submitCall_mem_okEvents beh k 0 t h
      omega
    · have hne : t ≠ k := by omega
      simp [hne] at h
  · simp
  · intro v hv
    rcases okVideos_status p beh k 0 v hv with h | h <;> simp [h]

/-- Witness for the amended C2: N = 3, the client raises at variation 1
after variation 0 completed. -/
theorem submit_error_aborts_batch_witness :
    (generate_videos_with_veo3 (some c2Beh) cxParams 3).1.length = 1 ∧
    (generate_videos_with_veo3 (some c2Beh) cxParams 3).2.count (GenEv.pollCall 1) = 0 ∧
    GenEv.submitCall 2 ∉ (generate_videos_with_veo3 (some c2Beh) cxParams 3).2 ∧
    GenEv.errorReport ∈ (generate_videos_with_veo3 (some c2Beh) cxParams 3).2 := by
  have h := submit_error_aborts_batch cxParams c2Beh 3 1 (by decide) (by decide) rfl
  exact ⟨h.2.1, h.2.2.2.1, h.2.2.2.2.1 2 (by decide), h.2.2.2.2.2.1⟩

/-- `pollCalls` of a never-completing operation: the loop runs its full
budget of 60 iterations, one `operations.get` call each. -/
theorem pollCalls_never_done : pollCalls none = 60 := by decide

/-- C3.  In a batch where no client call raises, a variation whose remote
operation never reaches done gets exactly 60 poll calls (not 61), its Video
record has status "timeout" with `local_path` set to `None` (no path), a
warning — not an error — is reported, and the batch still returns all N
records (it continues past the timed-out variation). -/
theorem variation_timeout_sixty_polls (p : GenParams)
    (beh : Nat → VarBehavior) (n i : Nat) (hin : i < n)
    (hok : ∀ j, j < n → noRaise (beh j) = true)
    (hto : (beh i).submit = some none) :
    (generate_videos_with_veo3 (some beh) p n).2.count (GenEv.pollCall i) = 60 ∧
    (generate_videos_with_veo3 (some beh) p n).1[i]? = some (timeoutVideo p i) ∧
    (timeoutVideo p i).status = "timeout" ∧
    (timeoutVideo p i).local_path = some none ∧
    GenEv.warnTimeout i ∈ (generate_videos_with_veo3 (some beh) p n).2 ∧
    GenEv.errorReport ∉ (generate_videos_with_veo3 (some beh) p n).2 ∧
    (generate_videos_with_veo3 (some beh) p n).1.length = n := by
  have hz : ∀ j, j < n → noRaise (beh (0 + j)) = true := by
    intro j hj
    simpa using hok j hj
  have hg : generate_videos_with_veo3 (some beh) p n = genLoop p beh n 0 := rfl
  rw [hg, genLoop_ok p beh n 0 hz]
  have hdo : doneWithinBudget none = false := rfl
  refine ⟨?_, ?_, rfl, rfl, ?_, ?_, okVideos_length p beh n 0⟩
  · have hc := count_pollCall_okEvents beh n 0 i (Nat.zero_le i) (by omega)
    simp only [hc, pollsOf, hto, pollCalls_never_done]
  · have hv := okVideos_get p beh n 0 i hin
    simp only [Nat.zero_add] at hv
    simp only [hv]
    unfold varVideo
    rw [hto]
    simp [hdo]
  · exact warnTimeout_mem_okEvents beh n 0 i none (Nat.zero_le i) (by omega) hto hdo
  · exact errorReport_not_mem_okEvents beh n 0

/-- A client whose first variation never completes, second completes at
once. -/
def c3Beh : Nat → VarBehavior :=
  fun i => if i = 0 then { submit := some none, downloadOk := true }
    else { submit := some (some 0), downloadOk := true }

/-- Witness for C3: N = 2, variation 0 never completes. -/
theorem variation_timeout_sixty_polls_witness :
    (generate_videos_with_veo3 (some c3Beh) cxParams 2).2.count (GenEv.pollCall 0) = 60 ∧
    (generate_videos_with_veo3 (some c3Beh) cxParams 2).1[0]?
      = some (timeoutVideo cxParams 0) ∧
    GenEv.warnTimeout 0 ∈ (generate_videos_with_veo3 (some c3Beh) cxParams 2).2 ∧
    GenEv.errorReport ∉ (generate_videos_with_veo3 (some c3Beh) cxParams 2).2 ∧
    (generate_videos_with_veo3 (some c3Beh) cxParams 2).1.length = 2 := by
  have h := variation_timeout_sixty_polls cxParams c3Beh 2 0 (by decide) (by decide) rfl
  exact ⟨h.1, h.2.1, h.2.2.2.2.1, h.2.2.2.2.2.1, h.2.2.2.2.2.2⟩

/-- Witness for C6 at a concrete well-formed mapping. -/
theorem save_then_load_roundtrip_witness :
    WFlp c6Map ∧
    sessionsEquiv c6Map
      (load_sessions_from_file (PyVal.dict [])
        (save_sessions_to_file ⟨c6Map, none, ⟨none, none⟩⟩ true).1.pfs).1 :=
  ⟨by decide,
   save_then_load_roundtrip ⟨c6Map, none, ⟨none, none⟩⟩ (PyVal.dict []) (by decide)⟩

end Veo3
